import Mathlib

/-
  Verification of the proji import pipeline and materialization engine
  (storage/models/package.go, pkg/proji/storage/models/project.go).

  Shallow embedding conventions:
  * Go strings are modelled as Lean `String` values treated as sequences of
    one-byte characters; Go indexes bytes, the model indexes characters, which
    agree on ASCII data.  All string helpers are re-implemented structurally
    over `List Char` so that the kernel can evaluate them.
  * Fallible Go code is modelled with `Option`: `none` models a Go runtime
    panic (index out of range) or an operation error, as stated at each
    definition.
  * Calls into the filesystem, the network and subprocesses are modelled by
    explicit oracles (success flags / result maps) passed as arguments.
-/

set_option autoImplicit false

namespace Proji

/-! ## String helpers (structural re-implementations of the Go endpoints used) -/

/-- Does `pat` occur at the head of `s`?  Models strings.HasPrefix pat-on-s. -/
def headMatch : List Char → List Char → Bool
  | [], _ => true
  | _ :: _, [] => false
  | p :: ps, c :: cs => (p == c) && headMatch ps cs

/-- First index at which `pat` occurs as a contiguous substring of `s`
(strings.Index / the successful-match position of a literal regular
expression); `none` when it does not occur. -/
def findSubIdx (pat : List Char) : List Char → Option Nat
  | [] => if headMatch pat [] then some 0 else none
  | c :: t => if headMatch pat (c :: t) then some 0 else (findSubIdx pat t).map (· + 1)

/-- regexp.FindStringIndex for a literal pattern: the pattern matches somewhere
inside `s`.  (The two patterns the source compiles, templates-slash and
configs-slash-dot-star, match a path exactly when the literal part occurs in
it, since the trailing dot-star also matches the empty string.) -/
def containsSub (s pat : String) : Bool := (findSubIdx pat.toList s.toList).isSome

/-- strings.HasPrefix. -/
def strStartsWith (s pre : String) : Bool := headMatch pre.toList s.toList

/-- Go slice s[:n] (byte slicing, modelled on characters). -/
def strTake (s : String) (n : Nat) : String := String.mk (s.toList.take n)

/-- Go slice s[n:] (byte slicing, modelled on characters). -/
def strDrop (s : String) (n : Nat) : String := String.mk (s.toList.drop n)

/-- strings.ToLower, ASCII model. -/
def strToLower (s : String) : String := String.mk (s.toList.map Char.toLower)

/-- Fuelled core of strings.Split for a non-empty separator: split around each
non-overlapping occurrence, left to right.  Fuel `s.length + 1` is enough since
every step consumes at least one character. -/
def splitGoAux (sep : List Char) : Nat → List Char → List (List Char)
  | 0, s => [s]
  | fuel + 1, s =>
    match findSubIdx sep s with
    | none => [s]
    | some i => s.take i :: splitGoAux sep fuel (s.drop (i + sep.length))

/-- strings.Split (all separators used by the source are non-empty). -/
def splitGo (s sep : String) : List String :=
  (splitGoAux sep.toList (s.toList.length + 1) s.toList).map String.mk

/-! ## pickLabel (package.go 361-413) -/

/-- The separator list labelSeparators of pickLabel. -/
def labelSeparators : List String := ["-", "_", ".", " ", "%20"]

/-- The separator loop of pickLabel: try each separator in order and stop at
the first one that yields more than one part; otherwise `parts` keeps the last
attempted split. -/
def splitBySeparators (packageName : String) : List String → List String
  | [] => []
  | d :: rest =>
    let parts := splitGo packageName d
    if parts.length > 1 then parts
    else if rest.isEmpty then parts
    else splitBySeparators packageName rest

/-- The label-building loop of pickLabel: append the first character of each of
the first five parts (the loop breaks once the index exceeds maxLabelLen = 4).
`none` models the Go panic part-index-zero raises on an empty part. -/
def buildLabelFromParts (parts : List String) : Option String :=
  (parts.take 5).foldl
    (fun acc part =>
      match acc with
      | none => none
      | some label =>
        match part.toList with
        | [] => none
        | c :: _ => some (label.push c))
    (some "")

/-- Maximal matches of the regular expression upper-then-non-uppers
(FindAllString): characters before the first uppercase letter are skipped,
then each match is one uppercase letter followed by all following
non-uppercase characters.  Fuel is the length of the input. -/
def camelRunsAux : Nat → List Char → List (List Char)
  | 0, _ => []
  | _ + 1, [] => []
  | fuel + 1, c :: t =>
    if c.isUpper then
      (c :: t.takeWhile (fun x => !x.isUpper)) ::
        camelRunsAux fuel (t.dropWhile (fun x => !x.isUpper))
    else camelRunsAux fuel t

/-- FindAllString of the camel-case regular expression on `s`. -/
def camelRuns (s : String) : List String :=
  (camelRunsAux s.length s.toList).map String.mk

/-- The uppercase-forcing step of pickLabel: if the first character is not
uppercase, replace it with its uppercase form (ASCII model of
unicode.ToUpper on the first byte). -/
def forceUpperFirst (s : String) : String :=
  match s.toList with
  | [] => s
  | c :: t => if c.isUpper then s else String.mk (c.toUpper :: t)

/-- Shallow embedding of pickLabel (package.go 361-413).  `none` models the Go
panic raised when a separator split produces an empty part and the loop indexes
its first byte. -/
def pickLabel (packageName : String) : Option String :=
  let nameLen := packageName.length
  if nameLen < 2 then some (strToLower packageName)
  else
    let parts := splitBySeparators packageName labelSeparators
    if parts.length > 1 then
      (buildLabelFromParts parts).map strToLower
    else
      let packageName := forceUpperFirst packageName
      let parts := camelRuns packageName
      if parts.length > 1 then
        (buildLabelFromParts parts).map strToLower
      else
        some (strToLower (String.mk
          [packageName.toList.getD 0 ' ',
           packageName.toList.getD (nameLen / 2) ' ',
           packageName.toList.getD (nameLen - 1) ' ']))

/-! ## Claims C3 and C4 -/

/-- Claim C3, counterexample: the spec example deriveLabel of "ab" equals "ab"
fails on the code; pickLabel "ab" evaluates to "abb" (first, middle and last
character of the uppercased name "Ab", lowercased). -/
theorem pickLabel_ab_counterexample :
    pickLabel "ab" = some "abb" ∧ pickLabel "ab" ≠ some "ab" := by decide

/-- Claim C3, amended: the label-derivation function satisfies the first,
second and fourth spec examples, while deriveLabel of "ab" returns "abb". -/
theorem pickLabel_spec_examples :
    pickLabel "my-cool-app" = some "mca" ∧
    pickLabel "MyCoolApp" = some "mca" ∧
    pickLabel "ab" = some "abb" ∧
    pickLabel "x" = some "x" := by decide

/-- Claim C4: refuted on the code.  For the non-empty input "a--b" the
separator split on "-" yields an empty middle part and the label loop indexes
its first byte, a Go panic (index out of range); the function is therefore not
total on non-empty inputs. -/
theorem pickLabel_panics_on_empty_part :
    pickLabel "a--b" = none ∧ "a--b" ≠ "" := by decide

/-! ## Data model (the fields the source reads and writes) -/

/-- A proji template (storage model).  Description is never read by the code
under study and is omitted. -/
structure Template where
  IsFile : Bool
  Path : String
  Destination : String
  deriving DecidableEq

/-- A proji plugin.  package.go reads Path, project.go reads Name and
ExecNumber; the unused Description is omitted. -/
structure Plugin where
  Name : String
  Path : String
  ExecNumber : Int
  deriving DecidableEq

/-- The shape of a github tree entry as consumed by the source: the results of
the GetPath and GetType getters. -/
structure GHTreeEntry where
  path : String
  type : String
  deriving DecidableEq

/-- The shape of a gitlab tree node as consumed by the source (fields Path and
Type; the latter is renamed since Type is reserved in Lean). -/
structure GLTreeNode where
  Path : String
  EntryType : String
  deriving DecidableEq

/-! ## filterAndConvert (package.go 455-521)

A compiled regular expression is modelled by its match predicate on entry
paths: the filter holds exactly when FindStringIndex returns non-nil. -/

/-- The skip-computation loop shared by both converters: skip starts false;
every iteration first raises it to true, and the first matching filter resets
it to false and breaks. -/
def skipLoop (entryPath : String) : List (String → Bool) → Bool → Bool
  | [], skip => skip
  | filter :: rest, skip =>
    let skip := if !skip then true else skip
    if filter entryPath then false else skipLoop entryPath rest skip

/-- filterAndConvertGHTreeEntries (package.go 455-487). -/
def filterAndConvertGHTreeEntries : List GHTreeEntry → List (String → Bool) → List Template
  | [], _ => []
  | entry :: rest, filters =>
    let skip := skipLoop entry.path filters false
    if skip then filterAndConvertGHTreeEntries rest filters
    else
      let isFile := entry.type == "blob"
      { IsFile := isFile, Path := "", Destination := entry.path } ::
        filterAndConvertGHTreeEntries rest filters

/-- filterAndConvertGLTreeEntries (package.go 489-521). -/
def filterAndConvertGLTreeEntries : List GLTreeNode → List (String → Bool) → List Template
  | [], _ => []
  | entry :: rest, filters =>
    let skip := skipLoop entry.Path filters false
    if skip then filterAndConvertGLTreeEntries rest filters
    else
      let isFile := entry.EntryType == "blob"
      { IsFile := isFile, Path := "", Destination := entry.Path } ::
        filterAndConvertGLTreeEntries rest filters

theorem skipLoop_true (p : String) (l : List (String → Bool)) :
    skipLoop p l true = !l.any (fun f => f p) := by
  induction l with
  | nil => rfl
  | cons f rest ih =>
      by_cases h : f p <;> simp [skipLoop, h, ih]

theorem skipLoop_false (p : String) (l : List (String → Bool)) :
    skipLoop p l false = !(l.isEmpty || l.any (fun f => f p)) := by
  cases l with
  | nil => rfl
  | cons f rest =>
      by_cases h : f p <;> simp [skipLoop, h, skipLoop_true]

/-- Claim C7: on both platforms the converter keeps an entry exactly when the
filter list is empty or some filter matches the entry path; each kept entry
becomes a Template whose IsFile flag is true exactly for type "blob", with
empty Path and the entry path as Destination; order is preserved and nothing
is added or merged; and with an empty filter list the output has the same
cardinality as the input. -/
theorem filterAndConvert_spec :
    (∀ (entries : List GHTreeEntry) (filters : List (String → Bool)),
        filterAndConvertGHTreeEntries entries filters
          = (entries.filter
              (fun e => filters.isEmpty || filters.any (fun f => f e.path))).map
              (fun e => { IsFile := e.type == "blob", Path := "", Destination := e.path })) ∧
    (∀ (entries : List GLTreeNode) (filters : List (String → Bool)),
        filterAndConvertGLTreeEntries entries filters
          = (entries.filter
              (fun e => filters.isEmpty || filters.any (fun f => f e.Path))).map
              (fun e => { IsFile := e.EntryType == "blob", Path := "", Destination := e.Path })) ∧
    (∀ entries : List GHTreeEntry,
        (filterAndConvertGHTreeEntries entries []).length = entries.length) ∧
    (∀ entries : List GLTreeNode,
        (filterAndConvertGLTreeEntries entries []).length = entries.length) := by
  have gh : ∀ (entries : List GHTreeEntry) (filters : List (String → Bool)),
      filterAndConvertGHTreeEntries entries filters
        = (entries.filter
            (fun e => filters.isEmpty || filters.any (fun f => f e.path))).map
            (fun e => { IsFile := e.type == "blob", Path := "", Destination := e.path }) := by
    intro entries filters
    induction entries with
    | nil => rfl
    | cons e rest ih =>
        by_cases h : (filters.isEmpty || filters.any (fun f => f e.path) : Bool)
        · simp [filterAndConvertGHTreeEntries, skipLoop_false, h, ih]
        · simp [filterAndConvertGHTreeEntries, skipLoop_false, h, ih]
  have gl : ∀ (entries : List GLTreeNode) (filters : List (String → Bool)),
      filterAndConvertGLTreeEntries entries filters
        = (entries.filter
            (fun e => filters.isEmpty || filters.any (fun f => f e.Path))).map
            (fun e => { IsFile := e.EntryType == "blob", Path := "", Destination := e.Path }) := by
    intro entries filters
    induction entries with
    | nil => rfl
    | cons e rest ih =>
        by_cases h : (filters.isEmpty || filters.any (fun f => f e.Path) : Bool)
        · simp [filterAndConvertGLTreeEntries, skipLoop_false, h, ih]
        · simp [filterAndConvertGLTreeEntries, skipLoop_false, h, ih]
  refine ⟨gh, gl, ?_, ?_⟩
  · intro entries; rw [gh]; simp
  · intro entries; rw [gl]; simp

/-! ## ImportFromRepo: the template download queue (package.go 190-226)

The outer loop walks the declared templates of the decoded package, skipping
empty Paths; the inner loop walks the tree entries filtered with the
templates-slash pattern.  In the source the inner loop binder `template`
shadows the outer one, and the embedding reproduces that shadowing verbatim:
the HasPrefix test reads the inner entry's Path. -/

/-- The list of trimmed paths appended to filesToDownload under the templates
key by the prefix-matching mechanism of ImportFromRepo. -/
def importFromRepoTemplateQueue (pkgTemplates filteredTemplates : List Template) : List String :=
  pkgTemplates.foldl
    (fun acc template =>
      if template.Path == "" then acc
      else
        filteredTemplates.foldl
          (fun acc template =>
            let trimmedFilePath := strDrop template.Destination ("templates/".length)
            if strStartsWith trimmedFilePath template.Path then acc ++ [trimmedFilePath]
            else acc)
          acc)
    []

/-- Claim C1: refuted on the code.  A package declaring the single template
Path "foo/" queues the filtered entry "templates/bar/b.txt" as well, although
its trimmed path "bar/b.txt" starts with no declared Template.Path: the
shadowed inner binder makes the HasPrefix test compare against the inner
entry's always-empty Path. -/
theorem importFromRepo_queue_ignores_declared_path :
    importFromRepoTemplateQueue [{ IsFile := true, Path := "foo/", Destination := "foo/" }]
        (filterAndConvertGHTreeEntries
          [{ path := "templates/foo/a.txt", type := "blob" },
           { path := "templates/bar/b.txt", type := "blob" }]
          [fun p => containsSub p "templates/"])
      = ["foo/a.txt", "bar/b.txt"] ∧
    strStartsWith "bar/b.txt" "foo/" = false := by decide

/-! ## ImportCollectionFromRepo: WaitGroup bookkeeping (package.go 275-339)

The source calls wg.Add with the number of ALL templates obtained from the
configs-filtered tree, but the loop skips non-file templates with `continue`
before spawning the goroutine whose deferred wg.Done would decrement the
counter.  wg.Wait returns exactly when the counter reaches zero, i.e. when the
number of Done calls equals the number added. -/

/-- The value passed to wg.Add: the length of the filtered template list. -/
def collectionWaitAdd (templates : List Template) : Nat := templates.length

/-- The total number of wg.Done calls: one per spawned goroutine, i.e. one per
file template (each spawned task calls Done exactly once, via defer, on both
its error and its success paths). -/
def collectionWaitDone (templates : List Template) : Nat :=
  (templates.filter (fun t => t.IsFile)).length

/-- wg.Wait (and hence ImportCollectionFromRepo) returns exactly when the
counter reaches zero. -/
def collectionWaitReturns (templates : List Template) : Bool :=
  collectionWaitDone templates == collectionWaitAdd templates

/-- Claim C2: refuted on the code.  For a collection tree holding a config
file and a directory under configs (both match the configs pattern), a single
task is launched, for the lone file entry, but wg.Add counted both
entries, so the counter never reaches zero and the call never returns. -/
theorem importCollection_deadlocks_on_config_subdir :
    (filterAndConvertGHTreeEntries
        [{ path := "configs/a.toml", type := "blob" },
         { path := "configs/sub", type := "tree" }]
        [fun p => containsSub p "configs/"]).length = 2 ∧
    collectionWaitDone
      (filterAndConvertGHTreeEntries
        [{ path := "configs/a.toml", type := "blob" },
         { path := "configs/sub", type := "tree" }]
        [fun p => containsSub p "configs/"]) = 1 ∧
    collectionWaitReturns
      (filterAndConvertGHTreeEntries
        [{ path := "configs/a.toml", type := "blob" },
         { path := "configs/sub", type := "tree" }]
        [fun p => containsSub p "configs/"]) = false := by decide

/-! ## ImportFromRepo: the concurrent fetch stage (package.go 236-268)

Every spawned goroutine runs
    err = util.DownloadFileIfNotExists(dst, src); if err != nil { errs <- err }
where `err` is the enclosing function's variable, shared by all goroutines
without synchronization.  A task execution is modelled as two events on the
shared state: a write of its own download result to the shared variable,
followed by a check that reads the shared variable and sends the observed
value to the errs channel when it is non-nil.  A schedule is any interleaving
in which each task performs its write before its check. -/

/-- One event of fetch task `i`. -/
inductive FetchEvent where
  | write (i : Nat)
  | check (i : Nat)
  deriving DecidableEq

/-- Shared state of the fetch stage: the function-scoped err variable and the
multiset of values received on the errs channel (listed in send order). -/
structure FetchState where
  sharedErr : Option String
  sent : List String
  deriving DecidableEq

/-- Effect of one event; `results` gives each task's download outcome
(some message = failed fetch, none = success). -/
def fetchStep (results : List (Option String)) (st : FetchState) : FetchEvent → FetchState
  | .write i => { st with sharedErr := results.getD i none }
  | .check _ =>
    match st.sharedErr with
    | some m => { st with sent := st.sent ++ [m] }
    | none => st

/-- Run a schedule from the initial state. -/
def fetchRun (results : List (Option String)) (schedule : List FetchEvent) : FetchState :=
  schedule.foldl (fetchStep results) { sharedErr := none, sent := [] }

/-- The events of task `i`, in schedule order. -/
def taskEvents (schedule : List FetchEvent) (i : Nat) : List FetchEvent :=
  schedule.filter (fun e => e == .write i || e == .check i)

/-- A schedule is a valid interleaving of `n` tasks when every task performs
exactly its write followed by its check, and no other task appears. -/
def scheduleOK (n : Nat) (schedule : List FetchEvent) : Bool :=
  (List.range n).all (fun i => taskEvents schedule i == [.write i, .check i]) &&
    schedule.all (fun e => match e with | .write i => i < n | .check i => i < n)

/-- The aggregation after wg.Wait: concatenate every received error message
followed by a newline; return nil exactly when the built message is empty. -/
def combineErrs (errs : List String) : Option String :=
  let errMsg := errs.foldl (fun acc e => acc ++ e ++ "\n") ""
  if errMsg.length > 0 then some errMsg else none

/-- Claim C8: refuted on the code.  With two queued fetches whose first fails
with "boom" and second succeeds, the interleaving in which both downloads
complete before the first task checks the shared err variable is a valid
schedule, yet the failure is overwritten by the sibling's nil and the call
returns a nil combined error despite a failed fetch.  Under the
non-interleaved schedule the intended one-line-per-failure aggregation is
recovered. -/
theorem importFromRepo_fetch_can_lose_errors :
    scheduleOK 2 [.write 0, .write 1, .check 0, .check 1] = true ∧
    [some "boom", none].getD 0 none ≠ none ∧
    combineErrs (fetchRun [some "boom", none]
      [.write 0, .write 1, .check 0, .check 1]).sent = none ∧
    combineErrs (fetchRun [some "boom", none]
      [.write 0, .check 0, .write 1, .check 1]).sent = some "boom\n" := by decide

/-! ## Plugin phases (project.go 98-132)

runPlugin launches an external executable; its exit status is modelled by the
oracle `runOk`.  Each phase returns the sequence of plugins it actually
executed (a failed plugin did execute) and whether the phase completed without
error (a failure returns immediately). -/

/-- preRunPlugins (project.go 98-110): plugins with ExecNumber >= 0 are
skipped; the rest run in stored order until the first failure. -/
def preRunPlugins (runOk : Plugin → Bool) : List Plugin → List Plugin × Bool
  | [] => ([], true)
  | plugin :: rest =>
    if plugin.ExecNumber ≥ 0 then preRunPlugins runOk rest
    else if runOk plugin then
      let r := preRunPlugins runOk rest
      (plugin :: r.1, r.2)
    else ([plugin], false)

/-- postRunPlugins (project.go 112-124): plugins with ExecNumber <= 0 are
skipped; the rest run in stored order until the first failure. -/
def postRunPlugins (runOk : Plugin → Bool) : List Plugin → List Plugin × Bool
  | [] => ([], true)
  | plugin :: rest =>
    if plugin.ExecNumber ≤ 0 then postRunPlugins runOk rest
    else if runOk plugin then
      let r := postRunPlugins runOk rest
      (plugin :: r.1, r.2)
    else ([plugin], false)

/-- Claim C5: in a pre-hook phase that completes without error exactly the
plugins with negative ExecNumber execute, in stored declaration order; in a
post-hook phase that completes without error exactly those with strictly
positive ExecNumber execute, in stored order; a plugin with ExecNumber zero
executes in neither phase of any run; and the executed order follows
declaration order, not ExecNumber magnitude, as witnessed by a phase whose
magnitudes come out as the unsorted sequence [2, 1]. -/
theorem plugin_phase_selection :
    (∀ (runOk : Plugin → Bool) (plugins : List Plugin),
        (preRunPlugins runOk plugins).2 = true →
        (preRunPlugins runOk plugins).1
          = plugins.filter (fun p => decide (p.ExecNumber < 0))) ∧
    (∀ (runOk : Plugin → Bool) (plugins : List Plugin),
        (postRunPlugins runOk plugins).2 = true →
        (postRunPlugins runOk plugins).1
          = plugins.filter (fun p => decide (0 < p.ExecNumber))) ∧
    (∀ (runOk : Plugin → Bool) (plugins : List Plugin) (p : Plugin),
        p.ExecNumber = 0 →
        p ∉ (preRunPlugins runOk plugins).1 ∧ p ∉ (postRunPlugins runOk plugins).1) ∧
    ((preRunPlugins (fun _ => true)
        [{ Name := "a", Path := "a", ExecNumber := -2 },
         { Name := "b", Path := "b", ExecNumber := -1 }]).1.map
        (fun p => p.ExecNumber.natAbs) = [2, 1]) := by
  refine ⟨?_, ?_, ?_, by decide⟩
  · intro runOk plugins
    induction plugins with
    | nil => intro _; rfl
    | cons plugin rest ih =>
        intro h
        by_cases hskip : plugin.ExecNumber ≥ 0
        · have hnot : ¬ plugin.ExecNumber < 0 := not_lt.mpr hskip
          simp only [preRunPlugins, if_pos hskip] at h ⊢
          simpa [hnot] using ih h
        · have hlt : plugin.ExecNumber < 0 := lt_of_not_ge hskip
          by_cases hrun : runOk plugin
          · simp only [preRunPlugins, if_neg hskip, if_pos hrun] at h ⊢
            simpa [hlt] using ih h
          · simp [preRunPlugins, if_neg hskip, hrun] at h
  · intro runOk plugins
    induction plugins with
    | nil => intro _; rfl
    | cons plugin rest ih =>
        intro h
        by_cases hskip : plugin.ExecNumber ≤ 0
        · have hnot : ¬ 0 < plugin.ExecNumber := not_lt.mpr hskip
          simp only [postRunPlugins, if_pos hskip] at h ⊢
          simpa [hnot] using ih h
        · have hlt : 0 < plugin.ExecNumber := lt_of_not_ge hskip
          by_cases hrun : runOk plugin
          · simp only [postRunPlugins, if_neg hskip, if_pos hrun] at h ⊢
            simpa [hlt] using ih h
          · simp [postRunPlugins, if_neg hskip, hrun] at h
  · intro runOk plugins p hp
    induction plugins with
    | nil => exact ⟨List.not_mem_nil p, List.not_mem_nil p⟩
    | cons plugin rest ih =>
        constructor
        · by_cases hskip : plugin.ExecNumber ≥ 0
          · simpa [preRunPlugins, if_pos hskip] using ih.1
          · have hlt : plugin.ExecNumber < 0 := lt_of_not_ge hskip
            have hne : p ≠ plugin := by
              intro hEq; rw [← hEq, hp] at hlt; exact absurd hlt (by decide)
            by_cases hrun : runOk plugin
            · simpa [preRunPlugins, if_neg hskip, hrun, hne] using ih.1
            · simp [preRunPlugins, if_neg hskip, hrun, hne]
        · by_cases hskip : plugin.ExecNumber ≤ 0
          · simpa [postRunPlugins, if_pos hskip] using ih.2
          · have hlt : 0 < plugin.ExecNumber := lt_of_not_ge hskip
            have hne : p ≠ plugin := by
              intro hEq; rw [← hEq, hp] at hlt; exact absurd hlt (by decide)
            by_cases hrun : runOk plugin
            · simpa [postRunPlugins, if_neg hskip, hrun, hne] using ih.2
            · simp [postRunPlugins, if_neg hskip, hrun, hne]

/-- Witness for claim C5: a concrete pre-hook phase, with an all-succeeding
runPlugin oracle, executes exactly the negative-ExecNumber plugins in stored
order. -/
theorem plugin_phase_selection_witness :
    (preRunPlugins (fun _ => true)
        [{ Name := "a", Path := "a", ExecNumber := -2 },
         { Name := "z", Path := "z", ExecNumber := 0 },
         { Name := "b", Path := "b", ExecNumber := 1 },
         { Name := "c", Path := "c", ExecNumber := -1 }]).1
      = [{ Name := "a", Path := "a", ExecNumber := -2 },
         { Name := "c", Path := "c", ExecNumber := -1 }] := by
  have h := plugin_phase_selection.1 (fun _ => true)
    [{ Name := "a", Path := "a", ExecNumber := -2 },
     { Name := "z", Path := "z", ExecNumber := 0 },
     { Name := "b", Path := "b", ExecNumber := 1 },
     { Name := "c", Path := "c", ExecNumber := -1 }] (by decide)
  rw [h]; decide

/-! ## Filesystem model and createFilesAndFolders (project.go 71-96)

The project filesystem is a flat association list from destination paths to
entries; the template store maps store-relative source paths to file
contents.  copy.Copy is modelled as copying the store file to the destination
key (it fails when the source is missing), os.Create as writing an empty file
(truncating whatever is there), os.MkdirAll as recording a directory. -/

/-- A filesystem entry: a file with contents, or a directory. -/
inductive FSEntry where
  | file (content : String)
  | dir
  deriving DecidableEq

/-- Flat filesystem: later writes shadow earlier ones. -/
abbrev FS := List (String × FSEntry)

/-- Template store: store-relative path to file content. -/
abbrev Store := List (String × String)

/-- Write an entry at a key. -/
def fsSet (fs : FS) (k : String) (e : FSEntry) : FS := (k, e) :: fs

/-- Read the entry at a key. -/
def fsGet (fs : FS) (k : String) : Option FSEntry :=
  (fs.find? (fun kv => kv.1 == k)).map (fun kv => kv.2)

/-- Read the store file at a path. -/
def storeGet (store : Store) (k : String) : Option String :=
  (store.find? (fun kv => kv.1 == k)).map (fun kv => kv.2)

/-- The loop body of createFilesAndFolders for one template: copy when Path is
non-empty, then create an empty file or the directory at Destination.  `none`
models a returned error (missing copy source). -/
def processTemplate (store : Store) (fs : FS) (t : Template) : Option FS :=
  let afterCopy : Option FS :=
    if t.Path.length > 0 then
      match storeGet store t.Path with
      | some content => some (fsSet fs t.Destination (.file content))
      | none => none
    else some fs
  match afterCopy with
  | none => none
  | some fs =>
    if t.IsFile then some (fsSet fs t.Destination (.file ""))
    else some (fsSet fs t.Destination .dir)

/-- createFilesAndFolders (project.go 71-96): process the templates in order,
stopping at the first error. -/
def createFilesAndFolders (store : Store) : List Template → FS → Option FS
  | [], fs => some fs
  | t :: rest, fs =>
    match processTemplate store fs t with
    | none => none
    | some fs => createFilesAndFolders store rest fs

theorem fsGet_fsSet (fs : FS) (k : String) (e : FSEntry) :
    fsGet (fsSet fs k e) k = some e := by
  simp [fsGet, fsSet]

/-- Claim C10: for every template with IsFile true, the step for that template
leaves an empty file at its Destination (truncating whatever the optional copy
step put there); consequently a run of createFilesAndFolders whose final
template has IsFile true and a non-empty Path both found and copied the
template-store source and still ends with an empty file at that Destination. -/
theorem createFilesAndFolders_truncates :
    (∀ (store : Store) (fs : FS) (t : Template) (fs' : FS),
        t.IsFile = true →
        processTemplate store fs t = some fs' →
        fsGet fs' t.Destination = some (.file "")) ∧
    (∀ (store : Store) (fs : FS) (ts : List Template) (t : Template) (fs' : FS),
        t.IsFile = true →
        0 < t.Path.length →
        createFilesAndFolders store (ts ++ [t]) fs = some fs' →
        (∃ c, storeGet store t.Path = some c) ∧
          fsGet fs' t.Destination = some (.file "")) := by
  have step : ∀ (store : Store) (fs : FS) (t : Template) (fs' : FS),
      t.IsFile = true →
      processTemplate store fs t = some fs' →
      fsGet fs' t.Destination = some (.file "") := by
    intro store fs t fs' hFile hProc
    unfold processTemplate at hProc
    by_cases hPath : t.Path.length > 0
    · simp only [if_pos hPath] at hProc
      cases hSrc : storeGet store t.Path with
      | none => rw [hSrc] at hProc; exact absurd hProc (by simp)
      | some content =>
          rw [hSrc] at hProc
          simp only [hFile, if_pos] at hProc
          cases hProc
          exact fsGet_fsSet _ _ _
    · simp only [if_neg hPath] at hProc
      simp only [hFile, if_pos] at hProc
      cases hProc
      exact fsGet_fsSet _ _ _
  refine ⟨step, ?_⟩
  have last : ∀ (store : Store) (ts : List Template) (fs : FS) (t : Template) (fs' : FS),
      t.IsFile = true →
      0 < t.Path.length →
      createFilesAndFolders store (ts ++ [t]) fs = some fs' →
      (∃ c, storeGet store t.Path = some c) ∧
        fsGet fs' t.Destination = some (.file "") := by
    intro store ts
    induction ts with
    | nil =>
        intro fs t fs' hFile hPath hRun
        simp only [List.nil_append, createFilesAndFolders] at hRun
        cases hProc : processTemplate store fs t with
        | none => rw [hProc] at hRun; exact absurd hRun (by simp)
        | some fs1 =>
            rw [hProc] at hRun
            simp only [createFilesAndFolders] at hRun
            cases hRun
            constructor
            · unfold processTemplate at hProc
              simp only [if_pos hPath] at hProc
              cases hSrc : storeGet store t.Path with
              | none => rw [hSrc] at hProc; exact absurd hProc (by simp)
              | some content => exact ⟨content, rfl⟩
            · exact step store fs t _ hFile hProc
    | cons u rest ih =>
        intro fs t fs' hFile hPath hRun
        simp only [List.cons_append, createFilesAndFolders] at hRun
        cases hProc : processTemplate store fs u with
        | none => rw [hProc] at hRun; exact absurd hRun (by simp)
        | some fs1 =>
            rw [hProc] at hRun
            exact ih fs1 t fs' hFile hPath hRun
  intro store fs ts t fs' hFile hPath hRun
  exact last store ts fs t fs' hFile hPath hRun

/-- Witness for claim C10: one template with IsFile true and non-empty Path,
whose store source holds "hello", ends with an empty file at README.md. -/
theorem createFilesAndFolders_truncates_witness :
    (∃ c, storeGet [("tpl/readme", "hello")] "tpl/readme" = some c) ∧
      fsGet (fsSet (fsSet [] "README.md" (.file "hello")) "README.md" (.file ""))
        "README.md" = some (.file "") :=
  createFilesAndFolders_truncates.2 [("tpl/readme", "hello")] [] []
    { IsFile := true, Path := "tpl/readme", Destination := "README.md" }
    (fsSet (fsSet [] "README.md" (.file "hello")) "README.md" (.file ""))
    rfl (by decide) rfl

/-! ## Project.Create (project.go 35-64)

The process state tracks the global current working directory and the flat
filesystem.  os.Mkdir and os.Chdir outcomes are environment flags; a
successful chdir sets the working directory to the project name.  The Go
slice cwd-up-to-length-minus-one raises a panic when cwd is empty, modelled by
the `.panicked` result; every later return path runs the deferred chdir back
to the (possibly slash-extended) cwd argument. -/

/-- The package reference of a project as read by project.go (field Class). -/
structure Class where
  Templates : List Template
  Plugins : List Plugin

/-- A proji project: the fields Create reads. -/
structure Project where
  Name : String
  Class : Class

/-- Environment of one Create run: outcomes of the external operations. -/
structure CreateEnv where
  mkdirOk : Bool
  chdirOk : Bool
  runOk : Plugin → Bool
  store : Store

/-- Mutable process state: current working directory and project filesystem. -/
structure ProcState where
  cwd : String
  fs : FS
  deriving DecidableEq

/-- Outcome of Create: a Go panic, or a return with an error flag. -/
inductive CreateResult where
  | panicked (st : ProcState)
  | returned (failed : Bool) (st : ProcState)
  deriving DecidableEq

/-- Shallow embedding of Project.Create (project.go 35-64). -/
def Project.Create (p : Project) (cwd configPath : String) (env : CreateEnv)
    (st : ProcState) : CreateResult :=
  let _ := configPath
  if !env.mkdirOk then .returned true st
  else if !env.chdirOk then .returned true st
  else
    let st := { st with cwd := p.Name }
    if cwd.length = 0 then .panicked st
    else
      let cwd := if strTake cwd (cwd.length - 1) ≠ "/" then cwd ++ "/" else cwd
      let restore := fun (s : ProcState) => { s with cwd := cwd }
      let pre := preRunPlugins env.runOk p.Class.Plugins
      if !pre.2 then .returned true (restore st)
      else
        match createFilesAndFolders env.store p.Class.Templates st.fs with
        | none => .returned true (restore st)
        | some fs' =>
          let st := { st with fs := fs' }
          let post := postRunPlugins env.runOk p.Class.Plugins
          .returned (!post.2) (restore st)

/-- Identify a path with itself written with extra trailing slashes. -/
def dropTrailingSlashes (s : String) : String :=
  String.mk ((s.toList.reverse.dropWhile (fun c => c == '/')).reverse)

/-- Two path strings denote the same directory up to trailing slashes. -/
def sameDir (a b : String) : Prop := dropTrailingSlashes a = dropTrailingSlashes b

theorem dropTrailingSlashes_append_slash (s : String) :
    dropTrailingSlashes (s ++ "/") = dropTrailingSlashes s := by
  have hdata : (s ++ "/").toList = s.toList ++ ['/'] := by
    show (s ++ "/").data = s.data ++ ['/']
    simp [String.data_append]
  simp [dropTrailingSlashes, hdata]

/-- Claim C6: whenever Create returns (on any path: success, or failure of the
pre-hooks, the template writing, or the post-hooks) after mkdir and the chdir
into the project root succeeded, the final working directory denotes the
caller's original working directory (the cwd argument, which the deferred
chdir may extend with a trailing slash). -/
theorem create_restores_cwd :
    ∀ (p : Project) (cwd configPath : String) (env : CreateEnv) (st : ProcState)
      (failed : Bool) (st' : ProcState),
      st.cwd = cwd →
      env.mkdirOk = true →
      env.chdirOk = true →
      Project.Create p cwd configPath env st = .returned failed st' →
      sameDir st'.cwd st.cwd := by
  intro p cwd configPath env st failed st' hcwd hmk hch hrun
  have hrestored : st'.cwd = (if strTake cwd (cwd.length - 1) ≠ "/" then cwd ++ "/" else cwd) := by
    unfold Project.Create at hrun
    rw [hmk, hch] at hrun
    simp only [Bool.not_true, Bool.false_eq_true, if_false, if_neg] at hrun
    by_cases hlen : cwd.length = 0
    · rw [if_pos hlen] at hrun; exact absurd hrun (by simp)
    · rw [if_neg hlen] at hrun
      by_cases hpre : (preRunPlugins env.runOk p.Class.Plugins).2
      · rw [hpre] at hrun
        simp only [Bool.not_true, Bool.false_eq_true, if_false, if_neg] at hrun
        cases hcf : createFilesAndFolders env.store p.Class.Templates st.fs with
        | none => rw [hcf] at hrun; cases hrun; rfl
        | some fs' => rw [hcf] at hrun; cases hrun; rfl
      · rw [Bool.not_eq_true] at hpre
        rw [hpre] at hrun
        simp only [Bool.not_false, if_true, if_pos] at hrun
        cases hrun; rfl
  rw [hcwd, hrestored]
  by_cases hsl : strTake cwd (cwd.length - 1) ≠ "/"
  · rw [if_pos hsl]
    exact dropTrailingSlashes_append_slash cwd
  · rw [if_neg hsl]; rfl

/-- Witness for claim C6: a run with every operation succeeding, started in
the directory named by the cwd argument, returns with the working directory
restored (up to the appended trailing slash). -/
theorem create_restores_cwd_witness :
    sameDir (ProcState.mk "/home/u/" []).cwd (ProcState.mk "/home/u" []).cwd :=
  create_restores_cwd
    { Name := "demo", Class := { Templates := [], Plugins := [] } }
    "/home/u" "/cfg"
    { mkdirOk := true, chdirOk := true, runOk := fun _ => true, store := [] }
    { cwd := "/home/u", fs := [] } false { cwd := "/home/u/", fs := [] }
    rfl rfl rfl (by decide)

/-- Claim C9: Create never reaches the panic for a non-empty cwd argument (the
normalization slice is then in bounds), while for the empty cwd it panics
right after the chdir into the freshly created project directory and before
the deferred restoration is registered: the panic state still has the project
directory as the working directory. -/
theorem create_empty_cwd_panics :
    (∀ (p : Project) (cwd configPath : String) (env : CreateEnv) (st : ProcState),
        cwd ≠ "" →
        ∀ st' : ProcState, Project.Create p cwd configPath env st ≠ .panicked st') ∧
    (∀ (p : Project) (configPath : String) (env : CreateEnv) (st : ProcState),
        env.mkdirOk = true →
        env.chdirOk = true →
        Project.Create p "" configPath env st = .panicked { st with cwd := p.Name }) := by
  constructor
  · intro p cwd configPath env st hne st' hrun
    have hlen : cwd.length ≠ 0 := by
      intro h0
      apply hne
      cases cwd with
      | mk data =>
          cases data with
          | nil => rfl
          | cons c t => exact absurd h0 (by simp [String.length])
    unfold Project.Create at hrun
    by_cases hmk : env.mkdirOk
    · by_cases hch : env.chdirOk
      · rw [hmk, hch] at hrun
        simp only [Bool.not_true, Bool.false_eq_true, if_false, if_neg] at hrun
        rw [if_neg hlen] at hrun
        by_cases hpre : (preRunPlugins env.runOk p.Class.Plugins).2
        · rw [hpre] at hrun
          simp only [Bool.not_true, Bool.false_eq_true, if_false, if_neg] at hrun
          cases hcf : createFilesAndFolders env.store p.Class.Templates st.fs with
          | none => rw [hcf] at hrun; exact absurd hrun (by simp)
          | some fs' => rw [hcf] at hrun; exact absurd hrun (by simp)
        · rw [Bool.not_eq_true] at hpre
          rw [hpre] at hrun
          simp only [Bool.not_false, if_true, if_pos] at hrun
          exact absurd hrun (by simp)
      · rw [Bool.not_eq_true] at hch
        rw [hch] at hrun
        simp only [Bool.not_false, if_true] at hrun
        by_cases hmk2 : env.mkdirOk <;> simp [hmk2] at hrun
    · rw [Bool.not_eq_true] at hmk
      rw [hmk] at hrun
      simp only [Bool.not_false, if_true, if_pos] at hrun
      exact absurd hrun (by simp)
  · intro p configPath env st hmk hch
    unfold Project.Create
    rw [hmk, hch]
    simp

/-- Witness for claim C9: with every operation succeeding, Create does not
panic for the non-empty cwd slash-home-slash-u, and panics for the empty cwd,
leaving the process inside the project directory demo. -/
theorem create_empty_cwd_panics_witness :
    Project.Create
        { Name := "demo", Class := { Templates := [], Plugins := [] } }
        "/home/u" "/cfg"
        { mkdirOk := true, chdirOk := true, runOk := fun _ => true, store := [] }
        { cwd := "/home/u", fs := [] }
      ≠ .panicked { cwd := "demo", fs := [] } ∧
    Project.Create
        { Name := "demo", Class := { Templates := [], Plugins := [] } }
        "" "/cfg"
        { mkdirOk := true, chdirOk := true, runOk := fun _ => true, store := [] }
        { cwd := "/home/u", fs := [] }
      = .panicked { cwd := "demo", fs := [] } :=
  ⟨create_empty_cwd_panics.1
      { Name := "demo", Class := { Templates := [], Plugins := [] } }
      "/home/u" "/cfg"
      { mkdirOk := true, chdirOk := true, runOk := fun _ => true, store := [] }
      { cwd := "/home/u", fs := [] } (by decide)
      { cwd := "demo", fs := [] },
   create_empty_cwd_panics.2
      { Name := "demo", Class := { Templates := [], Plugins := [] } }
      "/cfg"
      { mkdirOk := true, chdirOk := true, runOk := fun _ => true, store := [] }
      { cwd := "/home/u", fs := [] } rfl rfl⟩

end Proji
